import Mathlib

/-!
# Sales analytics system: a shallow embedding

This file embeds the core of the sales-analytics pipeline
(`utils/data_processor.py`, `utils/api_handler.py`) in Lean and proves the
spec's claims about it.  Transactions are modelled as records of optional
fields (Python dictionaries may lack keys), money as exact rationals,
Python dictionaries (which preserve insertion order) as association lists.
-/

set_option maxHeartbeats 1000000
set_option maxRecDepth 8000

namespace Sales

/-- A decimal digit. -/
def isDigit (c : Char) : Bool := '0' ≤ c && c ≤ '9'

/-- Numeric value of a digit string, most significant first. -/
def digitsToNat (l : List Char) : Nat :=
  l.foldl (fun n c => 10 * n + (c.toNat - '0'.toNat)) 0

/-- Model of Python `int(s)`: an optional sign followed by at least one
digit.  (Surrounding whitespace and `_` separators are not modelled.) -/
def pyInt (l : List Char) : Option Int :=
  match l with
  | '-' :: rest =>
      if rest ≠ [] && rest.all isDigit then some (-(digitsToNat rest : Int)) else none
  | '+' :: rest =>
      if rest ≠ [] && rest.all isDigit then some (digitsToNat rest : Int) else none
  | _ =>
      if l ≠ [] && l.all isDigit then some (digitsToNat l : Int) else none

/-- Splitter matching Python `s.split(sep)` for a one-character separator:
`"".split` gives `[""]`, separators at the ends give empty fields. -/
def pySplitAux (sep : Char) : List Char → List Char → List (List Char)
  | [], acc => [acc.reverse]
  | c :: rest, acc =>
      if c = sep then acc.reverse :: pySplitAux sep rest []
      else pySplitAux sep rest (c :: acc)

/-- Python `s.split(sep)` on character lists. -/
def pySplit (sep : Char) (l : List Char) : List (List Char) :=
  pySplitAux sep l []

/-- Model of Python `float(s)` restricted to plain decimal literals
(optional sign, digits with an optional decimal point; exponents,
`inf`/`nan` and whitespace are not modelled).  Values are exact rationals. -/
def pyFloatUnsigned (l : List Char) : Option ℚ :=
  match pySplit '.' l with
  | [ip] =>
      if ip ≠ [] && ip.all isDigit then some (digitsToNat ip : ℚ) else none
  | [ip, fp] =>
      if (ip ++ fp) ≠ [] && ip.all isDigit && fp.all isDigit then
        some ((digitsToNat ip : ℚ) + (digitsToNat fp : ℚ) / (10 : ℚ) ^ fp.length)
      else none
  | _ => none

/-- Model of Python `float(s)` (sign handling). -/
def pyFloat (l : List Char) : Option ℚ :=
  match l with
  | '-' :: rest => (pyFloatUnsigned rest).map Neg.neg
  | '+' :: rest => pyFloatUnsigned rest
  | _ => pyFloatUnsigned l

/-- Python `s.replace(",", "")` on character lists. -/
def stripCommas (l : List Char) : List Char := l.filter (fun c => c ≠ ',')

/-- Python `s.startswith(p)`. -/
def pyStartsWith (p s : String) : Bool := p.toList.isPrefixOf s.toList

/-- A transaction record: a Python dictionary with up to eight typed fields.
`none` models an absent key.  `Quantity` is an `int`, `UnitPrice` a float
(modelled exactly as a rational). -/
structure Tx where
  transactionID : Option String
  date : Option String
  productID : Option String
  productName : Option String
  quantity : Option Int
  unitPrice : Option ℚ
  customerID : Option String
  region : Option String
  deriving DecidableEq, Repr

/-- The derived monetary amount `tx["Quantity"] * tx["UnitPrice"]`
(subscript access on field-complete records). -/
def amount (tx : Tx) : ℚ := (tx.quantity.getD 0 : ℚ) * tx.unitPrice.getD 0

/-- Body of one `parse_transactions` loop iteration once the line is split
into fields: requires exactly 8 fields, strips commas from the product name
and the numeric fields, parses quantity as int and unit price as float. -/
def parseFields (parts : List (List Char)) : Option Tx :=
  match parts with
  | [tid, date, pid, pname, qty, price, cid, reg] =>
      match pyInt (stripCommas qty), pyFloat (stripCommas price) with
      | some q, some up =>
          some { transactionID := some (String.mk tid)
                 date := some (String.mk date)
                 productID := some (String.mk pid)
                 productName := some (String.mk (stripCommas pname))
                 quantity := some q
                 unitPrice := some up
                 customerID := some (String.mk cid)
                 region := some (String.mk reg) }
      | _, _ => none
  | _ => none

/-- One line of `parse_transactions`: split on `|` then `parseFields`. -/
def parseLine (line : String) : Option Tx :=
  parseFields (pySplit '|' line.toList)

/-- `parse_transactions`: the per-line loop, order preserving. -/
def parse_transactions : List String → List Tx
  | [] => []
  | line :: rest =>
      match parseLine line with
      | some tx => tx :: parse_transactions rest
      | none => parse_transactions rest

/-- The validation pass of `validate_and_filter`: all eight required fields
present, positive quantity and unit price, and the `"T"`/`"P"`/`"C"`
identifier prefixes. -/
def validTx (tx : Tx) : Bool :=
  tx.transactionID.isSome && tx.date.isSome && tx.productID.isSome &&
  tx.productName.isSome && tx.quantity.isSome && tx.unitPrice.isSome &&
  tx.customerID.isSome && tx.region.isSome &&
  decide (0 < tx.quantity.getD 0) && decide (0 < tx.unitPrice.getD 0) &&
  pyStartsWith "T" (tx.transactionID.getD "") &&
  pyStartsWith "P" (tx.productID.getD "") &&
  pyStartsWith "C" (tx.customerID.getD "")

/-- Python truthiness of the `region` argument in `if region:`:
`None` and the empty string are falsy. -/
def regionActive : Option String → Bool
  | none => false
  | some s => !(s = "")

/-- The `in_range` predicate of the amount filter (inclusive bounds,
an absent bound is unbounded). -/
def inRange (min_amount max_amount : Option ℚ) (tx : Tx) : Bool :=
  !(match min_amount with | some m => decide (amount tx < m) | none => false) &&
  !(match max_amount with | some m => decide (m < amount tx) | none => false)

/-- The `summary` dictionary returned by `validate_and_filter`. -/
structure FilterSummary where
  total_input : ℕ
  invalid : ℕ
  filtered_by_region : ℕ
  filtered_by_amount : ℕ
  final_count : ℕ
  deriving DecidableEq, Repr

/-- The filtering pipeline of `validate_and_filter` after its display
block: validation pass, then the optional region filter, then the optional
amount filter, and the summary. -/
def validateFilterCore (txs : List Tx) (region : Option String)
    (min_amount max_amount : Option ℚ) : List Tx × ℕ × FilterSummary :=
  let valid0 := txs.filter validTx
  let invalid := (txs.filter (fun tx => !validTx tx)).length
  let valid1 :=
    if regionActive region then valid0.filter (fun tx => decide (tx.region = region))
    else valid0
  let fr := valid0.length - valid1.length
  let valid2 :=
    if min_amount.isSome || max_amount.isSome then
      valid1.filter (inRange min_amount max_amount)
    else valid1
  let fa := valid1.length - valid2.length
  (valid2, invalid,
    { total_input := txs.length, invalid := invalid, filtered_by_region := fr
      filtered_by_amount := fa, final_count := valid2.length })

/-- The display block at the head of `validate_and_filter` collects
`tx.get("Region")` — `None` for a record lacking the key — into a set and
calls `sorted` on it.  Sorting a set holding both `None` and a string
raises `TypeError` in Python 3, aborting the call before any validation:
exactly when one record lacks `Region` and another has one.  (The amounts
line uses `tx.get(..., 0)` defaults and `min`/`max` over numbers, which do
not raise on typed records; a single-element or all-`None` set sorts
without comparing.) -/
def sortedRegionsRaise (txs : List Tx) : Bool :=
  txs.any (fun tx => tx.region.isNone) && txs.any (fun tx => tx.region.isSome)

/-- `validate_and_filter(transactions, region, min_amount, max_amount)`:
the display block first — whose `sorted` call can raise `TypeError`,
modelled as `none` — then the validation pass and the optional filters;
on the non-raising path returns
`some (valid_transactions, invalid_count, summary)`. -/
def validate_and_filter (txs : List Tx) (region : Option String := none)
    (min_amount : Option ℚ := none) (max_amount : Option ℚ := none) :
    Option (List Tx × ℕ × FilterSummary) :=
  if sortedRegionsRaise txs then none
  else some (validateFilterCore txs region min_amount max_amount)

/-- First-match lookup in an association list: Python `d[k]` / `k in d`
on a dictionary with unique keys. -/
def getAssoc {K V : Type} [DecidableEq K] : List (K × V) → K → Option V
  | [], _ => none
  | (k, v) :: rest, key => if k = key then some v else getAssoc rest key

/-- The Python idiom `if k not in d: d[k] = dflt` followed by an in-place
update `f` of `d[k]`.  New keys are appended, so entry order is
first-occurrence (insertion) order, as for a Python dictionary. -/
def bump {K V : Type} [DecidableEq K] : List (K × V) → K → V → (V → V) → List (K × V)
  | [], k, dflt, f => [(k, f dflt)]
  | (k', v) :: rest, k, dflt, f =>
      if k' = k then (k', f v) :: rest else (k', v) :: bump rest k dflt f

/-- Python `round(x, 2)`: round half to even at two decimal places,
on exact rationals. -/
def pyRound2 (q : ℚ) : ℚ :=
  let y := q * 100
  let f : ℤ := ⌊y⌋
  let r := y - f
  (if r < 1 / 2 then (f : ℚ)
   else if 1 / 2 < r then (f : ℚ) + 1
   else if f % 2 = 0 then (f : ℚ) else (f : ℚ) + 1) / 100

/-- Add to a Python `set` modelled as a duplicate-free list in insertion
order (`s.add(x)`). -/
def addIfNew (l : List String) (s : String) : List String :=
  if s ∈ l then l else l ++ [s]

/-- Lexicographic order on character lists: Python string `<=`. -/
def leChars : List Char → List Char → Bool
  | [], _ => true
  | _ :: _, [] => false
  | a :: as, b :: bs => if a = b then leChars as bs else decide (a < b)

/-- `calculate_total_revenue`: sum of amounts. -/
def calculate_total_revenue (txs : List Tx) : ℚ :=
  txs.foldl (fun acc tx => acc + amount tx) 0

/-- First loop of `region_wise_sales`: per-region `(total_sales,
transaction_count)` accumulation into an (insertion-ordered) dictionary. -/
def regionAgg (txs : List Tx) : List (String × ℚ × ℕ) :=
  txs.foldl
    (fun acc tx =>
      bump acc (tx.region.getD "") (0, 0) (fun s => (s.1 + amount tx, s.2 + 1)))
    []

/-- One region's entry in the `region_wise_sales` result. -/
structure RegionStats where
  total_sales : ℚ
  transaction_count : ℕ
  percentage : ℚ
  deriving DecidableEq, Repr

/-- `region_wise_sales`: accumulate per-region totals and the grand total,
then compute each region's percentage (dividing by the grand total — a
`ZeroDivisionError`, modelled as `none`, when the grand total is zero and
at least one region exists), then sort by `total_sales` descending. -/
def region_wise_sales (txs : List Tx) : Option (List (String × RegionStats)) :=
  let total := txs.foldl (fun acc tx => acc + amount tx) 0
  let data := regionAgg txs
  if data.isEmpty then some []
  else if total = 0 then none
  else
    some (List.insertionSort (fun a b => b.2.total_sales ≤ a.2.total_sales)
      (data.map (fun p =>
        (p.1, { total_sales := p.2.1, transaction_count := p.2.2
                percentage := pyRound2 (p.2.1 / total * 100) }))))

/-- Shared per-product aggregation of `top_selling_products` and
`low_performing_products`: `(product_name, total_quantity, total_revenue)`
in first-occurrence order. -/
def productAgg (txs : List Tx) : List (String × Int × ℚ) :=
  (txs.foldl
    (fun acc tx =>
      bump acc (tx.productName.getD "") ((0 : Int), (0 : ℚ))
        (fun s => (s.1 + tx.quantity.getD 0, s.2 + amount tx)))
    []).map (fun p => (p.1, p.2.1, p.2.2))

/-- `top_selling_products(transactions, n=5)`: sort by total quantity
descending (stable), take the first `n`. -/
def top_selling_products (txs : List Tx) (n : ℕ := 5) : List (String × Int × ℚ) :=
  (List.insertionSort (fun a b => b.2.1 ≤ a.2.1) (productAgg txs)).take n

/-- `low_performing_products(transactions, threshold=10)`: keep products
with total quantity strictly below the threshold, sort ascending. -/
def low_performing_products (txs : List Tx) (threshold : Int := 10) :
    List (String × Int × ℚ) :=
  List.insertionSort (fun a b => a.2.1 ≤ b.2.1)
    ((productAgg txs).filter (fun p => p.2.1 < threshold))

/-- One customer's entry in the `customer_analysis` result. -/
structure CustStats where
  total_spent : ℚ
  purchase_count : ℕ
  products_bought : List String
  avg_order_value : ℚ
  deriving DecidableEq, Repr

/-- First loop of `customer_analysis`: per-customer
`(total_spent, purchase_count, products_bought)` accumulation. -/
def customerAgg (txs : List Tx) : List (String × ℚ × ℕ × List String) :=
  txs.foldl
    (fun acc tx =>
      bump acc (tx.customerID.getD "") ((0 : ℚ), (0 : ℕ), ([] : List String))
        (fun s =>
          (s.1 + amount tx, s.2.1 + 1, addIfNew s.2.2 (tx.productName.getD ""))))
    []

/-- `customer_analysis`: aggregate, compute the rounded average order
value, sort by `total_spent` descending. -/
def customer_analysis (txs : List Tx) : List (String × CustStats) :=
  List.insertionSort (fun a b => b.2.total_spent ≤ a.2.total_spent)
    ((customerAgg txs).map (fun p =>
      (p.1, { total_spent := p.2.1, purchase_count := p.2.2.1
              products_bought := p.2.2.2
              avg_order_value := pyRound2 (p.2.1 / (p.2.2.1 : ℚ)) })))

/-- One date's entry in the `daily_sales_trend` result. -/
structure DayStats where
  revenue : ℚ
  transaction_count : ℕ
  unique_customers : ℕ
  deriving DecidableEq, Repr

/-- First loop of `daily_sales_trend`: per-date
`(revenue, transaction_count, customers)` accumulation. -/
def dayAgg (txs : List Tx) : List (String × ℚ × ℕ × List String) :=
  txs.foldl
    (fun acc tx =>
      bump acc (tx.date.getD "") ((0 : ℚ), (0 : ℕ), ([] : List String))
        (fun s =>
          (s.1 + amount tx, s.2.1 + 1, addIfNew s.2.2 (tx.customerID.getD ""))))
    []

/-- `daily_sales_trend`: aggregate, then emit entries in ascending date
order with the distinct-customer count. -/
def daily_sales_trend (txs : List Tx) : List (String × DayStats) :=
  List.insertionSort (fun a b => leChars a.1.toList b.1.toList = true)
    ((dayAgg txs).map (fun p =>
      (p.1, { revenue := p.2.1, transaction_count := p.2.2.1
              unique_customers := p.2.2.2.length })))

/-- One iteration of the first loop of `find_peak_sales_day`: accumulate
the transaction's amount and a count under its date. -/
def dailyStep (acc : List (String × ℚ × ℕ)) (tx : Tx) : List (String × ℚ × ℕ) :=
  bump acc (tx.date.getD "") ((0 : ℚ), (0 : ℕ)) (fun s => (s.1 + amount tx, s.2 + 1))

/-- First loop of `find_peak_sales_day`: per-date
`(revenue, transaction_count)` accumulation in first-occurrence order. -/
def dailyAgg (txs : List Tx) : List (String × ℚ × ℕ) :=
  txs.foldl dailyStep []

/-- One iteration of the second loop of `find_peak_sales_day`: replace the
running peak exactly when this date's revenue is strictly greater. -/
def peakStep (acc : Option String × ℚ × ℕ) (p : String × ℚ × ℕ) :
    Option String × ℚ × ℕ :=
  if acc.2.1 < p.2.1 then (some p.1, p.2.1, p.2.2) else acc

/-- Second loop of `find_peak_sales_day`, starting from `(None, 0.0, 0)`. -/
def selectPeak (l : List (String × ℚ × ℕ)) : Option String × ℚ × ℕ :=
  l.foldl peakStep (none, 0, 0)

/-- `find_peak_sales_day`: aggregate then select. -/
def find_peak_sales_day (txs : List Tx) : Option String × ℚ × ℕ :=
  selectPeak (dailyAgg txs)

/-- The greatest per-date revenue appearing in a daily aggregation
(`0` for an empty aggregation). -/
def maxRev (l : List (String × ℚ × ℕ)) : ℚ :=
  l.foldl (fun m p => max m p.2.1) 0

/-- A catalog entry as stored by `create_product_mapping`: the reduced
attribute set, each attribute possibly missing (`dict.get`). -/
structure CatalogEntry where
  title : Option String
  category : Option String
  brand : Option String
  rating : Option ℚ
  deriving DecidableEq, Repr

/-- An enriched transaction: the copied base record plus the four
appended enrichment fields. -/
structure EnrichedTx where
  tx : Tx
  apiCategory : Option String
  apiBrand : Option String
  apiRating : Option ℚ
  apiMatch : Bool
  deriving DecidableEq, Repr

/-- One iteration of `enrich_sales_data`: derive the numeric key by
deleting every `'P'` from `tx.get("ProductID", "")` and parsing the rest
as an integer (`None` on failure); match only when the key is truthy
(present and nonzero) and found in the mapping. -/
def enrichOne (mapping : List (Int × CatalogEntry)) (tx : Tx) : EnrichedTx :=
  let pid := tx.productID.getD ""
  match pyInt (pid.toList.filter (fun c => c ≠ 'P')) with
  | some n =>
      if n ≠ 0 then
        match getAssoc mapping n with
        | some e => { tx := tx, apiCategory := e.category, apiBrand := e.brand
                      apiRating := e.rating, apiMatch := true }
        | none => { tx := tx, apiCategory := none, apiBrand := none
                    apiRating := none, apiMatch := false }
      else { tx := tx, apiCategory := none, apiBrand := none
             apiRating := none, apiMatch := false }
  | none => { tx := tx, apiCategory := none, apiBrand := none
              apiRating := none, apiMatch := false }

/-- `enrich_sales_data`: one enriched record per transaction, in order.
(The file-saving side effect is I/O and not modelled.) -/
def enrich_sales_data (txs : List Tx) (mapping : List (Int × CatalogEntry)) :
    List EnrichedTx :=
  txs.map (enrichOne mapping)

/-- The spec's worked example record
`T001|2024-12-01|P101|Laptop|2|45000|C001|North`. -/
def txG : Tx :=
  { transactionID := some "T001", date := some "2024-12-01"
    productID := some "P101", productName := some "Laptop"
    quantity := some 2, unitPrice := some 45000
    customerID := some "C001", region := some "North" }

/-- A second well-formed record on a different date. -/
def txB : Tx :=
  { transactionID := some "T002", date := some "2024-12-02"
    productID := some "P102", productName := some "Mouse"
    quantity := some 1, unitPrice := some 500
    customerID := some "C002", region := some "South" }

/-- A record with quantity zero: well-formed fields, zero amount. -/
def txQ0 : Tx := { txG with quantity := some 0 }

/-- A record lacking the `Region` key entirely. -/
def txNR : Tx := { txG with region := none }

/-- A record passing every check of `validate_and_filter` but whose
region is the empty string. -/
def txER : Tx := { txG with region := some "" }

/-- A record whose product identifier is `"P0"`, so the derived numeric
catalog key is `0`. -/
def txP0 : Tx := { txG with productID := some "P0" }

/-- A sample catalog entry. -/
def catE0 : CatalogEntry :=
  { title := some "Phone", category := some "electronics"
    brand := some "Acme", rating := some (9 / 2) }

/-- A raw line that begins with the literal header token `"TransactionID"`
yet has eight fields with parseable numerics. -/
def headerLine : String := "TransactionID|2024-01-01|P1|Widget|1|2|C1|North"

/-- Modelled from the spec: the Enrichment Join contract's key derivation
as the spec words it — strip the non-numeric prefix `"P"` from
`product_id` and parse the remainder as an integer (absent if parsing
fails).  Used only to compare the spec's wording against the code. -/
def specCatalogKey (pid : String) : Option Int :=
  pyInt (if pyStartsWith "P" pid then pid.toList.drop 1 else pid.toList)

/-- Modelled from the spec: the business rules a validated record must
satisfy, spelled out field by field (all eight fields present, positive
quantity and unit price, `"T"`/`"P"`/`"C"` identifier prefixes). -/
def SatisfiesRules (tx : Tx) : Prop :=
  (∃ tid, tx.transactionID = some tid ∧ pyStartsWith "T" tid = true) ∧
  tx.date.isSome = true ∧
  (∃ pid, tx.productID = some pid ∧ pyStartsWith "P" pid = true) ∧
  tx.productName.isSome = true ∧
  (∃ q, tx.quantity = some q ∧ 0 < q) ∧
  (∃ u, tx.unitPrice = some u ∧ 0 < u) ∧
  (∃ cid, tx.customerID = some cid ∧ pyStartsWith "C" cid = true) ∧
  tx.region.isSome = true

/-! ## Helper lemmas -/

/-- `validate_and_filter` succeeds exactly on inputs where the display
block's `sorted` does not raise, and then returns the core pipeline's
result. -/
theorem vaf_some_iff (txs : List Tx) (r : Option String) (m M : Option ℚ)
    (out : List Tx × ℕ × FilterSummary) :
    validate_and_filter txs r m M = some out ↔
      sortedRegionsRaise txs = false ∧ out = validateFilterCore txs r m M := by
  unfold validate_and_filter
  by_cases h : sortedRegionsRaise txs = true
  · rw [if_pos h]
    simp [h]
  · rw [if_neg h]
    rw [Bool.not_eq_true] at h
    simp [h, eq_comm]

/-- Every record surviving the validate-and-filter pipeline passed
validation and, when the respective filter was active, its predicate. -/
theorem mem_vaf (txs : List Tx) (r : Option String) (m M : Option ℚ) (tx : Tx)
    (h : tx ∈ (validateFilterCore txs r m M).1) :
    validTx tx = true ∧ (regionActive r = true → decide (tx.region = r) = true) ∧
    ((m.isSome || M.isSome) = true → inRange m M tx = true) := by
  unfold validateFilterCore at h
  dsimp only at h
  by_cases hr : regionActive r = true <;> by_cases ha : (m.isSome || M.isSome) = true <;>
    simp only [hr, ha, if_pos, if_neg, if_true, if_false, Bool.false_eq_true,
      List.mem_filter] at h <;>
    refine ⟨?_, ?_, ?_⟩ <;> simp_all

/-- The boolean validation check implies the spelled-out business rules. -/
theorem validTx_spelled (tx : Tx) (h : validTx tx = true) : SatisfiesRules tx := by
  unfold validTx at h
  simp only [Bool.and_eq_true, decide_eq_true_eq] at h
  obtain ⟨⟨⟨⟨⟨⟨⟨⟨⟨⟨⟨⟨h1, h2⟩, h3⟩, h4⟩, h5⟩, h6⟩, h7⟩, h8⟩, h9⟩, h10⟩, h11⟩, h12⟩, h13⟩ := h
  obtain ⟨tid, e1⟩ := Option.isSome_iff_exists.mp h1
  obtain ⟨pid, e3⟩ := Option.isSome_iff_exists.mp h3
  obtain ⟨q, e5⟩ := Option.isSome_iff_exists.mp h5
  obtain ⟨u, e6⟩ := Option.isSome_iff_exists.mp h6
  obtain ⟨cid, e7⟩ := Option.isSome_iff_exists.mp h7
  exact ⟨⟨tid, e1, by simp_all⟩, h2, ⟨pid, e3, by simp_all⟩, h4,
    ⟨q, e5, by simp_all⟩, ⟨u, e6, by simp_all⟩, ⟨cid, e7, by simp_all⟩, h8⟩

/-- The base record of an enriched record is the input transaction. -/
theorem enrichOne_tx (mapping : List (Int × CatalogEntry)) (tx : Tx) :
    (enrichOne mapping tx).tx = tx := by
  rcases hp : pyInt ((tx.productID.getD "").toList.filter fun c => c ≠ 'P') with _ | n <;>
      dsimp only [enrichOne] <;> rw [hp] <;> dsimp only
  by_cases hn : n ≠ 0
  · rw [if_pos hn]
    rcases hg : getAssoc mapping n with _ | e <;> rfl
  · rw [if_neg hn]

/-- Against the empty catalog mapping every enrichment misses. -/
theorem enrichOne_empty_apiMatch (tx : Tx) : (enrichOne [] tx).apiMatch = false := by
  rcases hp : pyInt ((tx.productID.getD "").toList.filter fun c => c ≠ 'P') with _ | n <;>
      dsimp only [enrichOne] <;> rw [hp] <;> dsimp only
  by_cases hn : n ≠ 0
  · rw [if_pos hn]
    rfl
  · rw [if_neg hn]

/-- The running maximum of a fold is at least its starting value. -/
theorem foldl_max_le_init (l : List (String × ℚ × ℕ)) (a : ℚ) :
    a ≤ l.foldl (fun m p => max m p.2.1) a := by
  induction l generalizing a with
  | nil => exact le_refl a
  | cons x xs ih => exact le_trans (le_max_left a x.2.1) (ih (max a x.2.1))

/-- The running maximum of a fold bounds every element's revenue. -/
theorem foldl_max_le_mem (l : List (String × ℚ × ℕ)) (a : ℚ) :
    ∀ p ∈ l, p.2.1 ≤ l.foldl (fun m p => max m p.2.1) a := by
  induction l generalizing a with
  | nil => intro p hp; cases hp
  | cons x xs ih =>
      intro p hp
      rcases List.mem_cons.mp hp with rfl | hmem
      · exact le_trans (le_max_right a p.2.1) (foldl_max_le_init xs _)
      · exact ih _ p hmem

/-- Characterization of the strictly-greater peak selection loop: starting
from any accumulator, if nothing beats it the accumulator survives, and
otherwise the result is the FIRST entry attaining the maximum revenue. -/
theorem peak_go (l : List (String × ℚ × ℕ)) :
    ∀ (acc : Option String × ℚ × ℕ) (M : ℚ),
      M = l.foldl (fun m p => max m p.2.1) acc.2.1 →
      (M ≤ acc.2.1 → l.foldl peakStep acc = acc) ∧
      (acc.2.1 < M →
        ∃ e, l.find? (fun p => decide (M ≤ p.2.1)) = some e ∧
          l.foldl peakStep acc = (some e.1, e.2.1, e.2.2) ∧ e.2.1 = M) := by
  induction l with
  | nil =>
      intro acc M hM
      rw [List.foldl_nil] at hM
      constructor
      · intro _; rfl
      · intro h
        rw [hM] at h
        exact absurd h (lt_irrefl _)
  | cons x xs ih =>
      intro acc M hM
      rw [List.foldl_cons] at hM
      by_cases hx : acc.2.1 < x.2.1
      · have hstep : peakStep acc x = (some x.1, x.2.1, x.2.2) := by
          unfold peakStep
          rw [if_pos hx]
        have hmax : max acc.2.1 x.2.1 = x.2.1 := max_eq_right (le_of_lt hx)
        have hM' : M = xs.foldl (fun m p => max m p.2.1)
            (((some x.1, x.2.1, x.2.2) : Option String × ℚ × ℕ)).2.1 := by
          rw [hM, hmax]
        have IH := ih (some x.1, x.2.1, x.2.2) M hM'
        have hxM : x.2.1 ≤ M := by
          rw [hM']
          exact foldl_max_le_init xs _
        constructor
        · intro hMacc
          exact absurd hMacc (not_le.mpr (lt_of_lt_of_le hx hxM))
        · intro _
          rw [List.foldl_cons, hstep]
          by_cases hMx : M ≤ x.2.1
          · have hMeq : M = x.2.1 := le_antisymm hMx hxM
            refine ⟨x, ?_, ?_, hMeq.symm⟩
            · exact List.find?_cons_of_pos _ (decide_eq_true hMx)
            · exact IH.1 hMx
          · obtain ⟨e, hfind, hfold, heM⟩ := IH.2 (not_le.mp hMx)
            refine ⟨e, ?_, hfold, heM⟩
            rw [List.find?_cons_of_neg _ (by simpa using hMx)]
            exact hfind
      · have hstep : peakStep acc x = acc := by
          unfold peakStep
          rw [if_neg hx]
        have hmax : max acc.2.1 x.2.1 = acc.2.1 := max_eq_left (not_lt.mp hx)
        have hM' : M = xs.foldl (fun m p => max m p.2.1) acc.2.1 := by
          rw [hM, hmax]
        have IH := ih acc M hM'
        constructor
        · intro hMacc
          rw [List.foldl_cons, hstep]
          exact IH.1 hMacc
        · intro haccM
          obtain ⟨e, hfind, hfold, heM⟩ := IH.2 haccM
          refine ⟨e, ?_, ?_, heM⟩
          · rw [List.find?_cons_of_neg _ ?_]
            · exact hfind
            · simp only [decide_eq_true_eq]
              intro hc
              exact absurd haccM (not_lt.mpr (le_trans hc (not_lt.mp hx)))
          · rw [List.foldl_cons, hstep]
            exact hfold

/-- `bump` never returns an empty dictionary. -/
theorem bump_ne_nil {K V : Type} [DecidableEq K] (l : List (K × V)) (k : K)
    (d : V) (f : V → V) : bump l k d f ≠ [] := by
  cases l with
  | nil => simp [bump]
  | cons x xs =>
      obtain ⟨k', v⟩ := x
      unfold bump
      split <;> simp

/-- An entry of `bump l k d f` is an old entry or the updated entry at
`k` (whose previous value was the default or an old value at `k`). -/
theorem mem_bump {K V : Type} [DecidableEq K] (l : List (K × V)) (k : K)
    (d : V) (f : V → V) (p : K × V) (hp : p ∈ bump l k d f) :
    p ∈ l ∨ ∃ v, p = (k, f v) ∧ (v = d ∨ (k, v) ∈ l) := by
  induction l with
  | nil =>
      simp only [bump, List.mem_singleton] at hp
      exact Or.inr ⟨d, hp, Or.inl rfl⟩
  | cons x xs ih =>
      obtain ⟨k', v⟩ := x
      by_cases h : k' = k
      · subst h
        rw [show bump ((k', v) :: xs) k' d f = (k', f v) :: xs by simp [bump]] at hp
        rcases List.mem_cons.mp hp with rfl | hmem
        · exact Or.inr ⟨v, rfl, Or.inr (List.mem_cons_self _ _)⟩
        · exact Or.inl (List.mem_cons_of_mem _ hmem)
      · rw [show bump ((k', v) :: xs) k d f = (k', v) :: bump xs k d f by
            simp [bump, h]] at hp
        rcases List.mem_cons.mp hp with rfl | hmem
        · exact Or.inl (List.mem_cons_self _ _)
        · rcases ih hmem with hin | ⟨w, hw, hv⟩
          · exact Or.inl (List.mem_cons_of_mem _ hin)
          · refine Or.inr ⟨w, hw, ?_⟩
            rcases hv with rfl | hvmem
            · exact Or.inl rfl
            · exact Or.inr (List.mem_cons_of_mem _ hvmem)

/-- Looking up the bumped key returns the updated value. -/
theorem getAssoc_bump_self {K V : Type} [DecidableEq K] (l : List (K × V))
    (k : K) (d : V) (f : V → V) :
    getAssoc (bump l k d f) k = some (f ((getAssoc l k).getD d)) := by
  induction l with
  | nil => simp [bump, getAssoc]
  | cons x xs ih =>
      obtain ⟨k', v⟩ := x
      by_cases h : k' = k
      · subst h
        simp [bump, getAssoc]
      · simp [bump, getAssoc, h, ih]

/-- Looking up any other key is unaffected by `bump`. -/
theorem getAssoc_bump_other {K V : Type} [DecidableEq K] (l : List (K × V))
    (k k' : K) (d : V) (f : V → V) (h : k ≠ k') :
    getAssoc (bump l k d f) k' = getAssoc l k' := by
  induction l with
  | nil => simp [bump, getAssoc, h]
  | cons x xs ih =>
      obtain ⟨a, v⟩ := x
      by_cases ha : a = k
      · subst ha
        simp [bump, getAssoc, h]
      · by_cases ha' : a = k'
        · subst ha'
          simp [bump, getAssoc, ha]
        · simp [bump, getAssoc, ha, ha', ih]

/-- The keys after `bump`: unchanged when the key existed, else the key is
appended at the end (insertion order). -/
theorem keys_bump {K V : Type} [DecidableEq K] (l : List (K × V)) (k : K)
    (d : V) (f : V → V) :
    (bump l k d f).map Prod.fst =
      if k ∈ l.map Prod.fst then l.map Prod.fst else l.map Prod.fst ++ [k] := by
  induction l with
  | nil => simp [bump]
  | cons x xs ih =>
      obtain ⟨k', v⟩ := x
      by_cases h : k' = k
      · subst h
        simp [bump]
      · by_cases hmem : k ∈ xs.map Prod.fst <;>
          simp [bump, h, ih, hmem, Ne.symm h]

/-- `bump` preserves distinctness of keys. -/
theorem nodup_keys_bump {K V : Type} [DecidableEq K] (l : List (K × V)) (k : K)
    (d : V) (f : V → V) (h : (l.map Prod.fst).Nodup) :
    ((bump l k d f).map Prod.fst).Nodup := by
  rw [keys_bump]
  by_cases hk : k ∈ l.map Prod.fst
  · rw [if_pos hk]
    exact h
  · rw [if_neg hk]
    refine List.Nodup.append h (List.nodup_singleton k) ?_
    intro a ha hb
    rw [List.mem_singleton] at hb
    exact hk (hb ▸ ha)

/-- With distinct keys, association lookup of a member entry's key finds
that entry's value. -/
theorem getAssoc_of_mem {K V : Type} [DecidableEq K] (l : List (K × V))
    (p : K × V) (hnd : (l.map Prod.fst).Nodup) (hp : p ∈ l) :
    getAssoc l p.1 = some p.2 := by
  induction l with
  | nil => cases hp
  | cons x xs ih =>
      obtain ⟨k, v⟩ := x
      rw [List.map_cons, List.nodup_cons] at hnd
      rcases List.mem_cons.mp hp with rfl | hmem
      · simp [getAssoc]
      · have hk : k ≠ p.1 := by
          intro he
          refine hnd.1 ?_
          rw [he]
          exact List.mem_map.mpr ⟨p, hmem, rfl⟩
        simp only [getAssoc, if_neg hk]
        exact ih hnd.2 hmem

/-- All revenues in the daily aggregation are positive when all transaction
amounts are. -/
theorem foldl_dailyStep_pos :
    ∀ (txs : List Tx) (acc : List (String × ℚ × ℕ)),
      (∀ tx ∈ txs, 0 < amount tx) → (∀ p ∈ acc, 0 < p.2.1) →
      ∀ p ∈ txs.foldl dailyStep acc, 0 < p.2.1 := by
  intro txs
  induction txs with
  | nil =>
      intro acc _ hacc p hp
      rw [List.foldl_nil] at hp
      exact hacc p hp
  | cons tx txs ih =>
      intro acc hval hacc p hp
      rw [List.foldl_cons] at hp
      refine ih (dailyStep acc tx) (fun t ht => hval t (List.mem_cons_of_mem _ ht))
        ?_ p hp
      intro q hq
      have htx : 0 < amount tx := hval tx (List.mem_cons_self _ _)
      unfold dailyStep at hq
      rcases mem_bump _ _ _ _ q hq with hmem | ⟨w, rfl, hw⟩
      · exact hacc q hmem
      · dsimp only
        rcases hw with rfl | hvmem
        · simpa using htx
        · exact add_pos (hacc (tx.date.getD "", w) hvmem) htx

/-- Folding `dailyStep` never empties the dictionary. -/
theorem foldl_dailyStep_ne_nil :
    ∀ (txs : List Tx) (acc : List (String × ℚ × ℕ)),
      acc ≠ [] → txs.foldl dailyStep acc ≠ [] := by
  intro txs
  induction txs with
  | nil =>
      intro acc h
      simpa using h
  | cons tx txs ih =>
      intro acc h
      rw [List.foldl_cons]
      refine ih _ ?_
      unfold dailyStep
      exact bump_ne_nil _ _ _ _

/-- A non-empty transaction collection yields a non-empty daily
aggregation. -/
theorem dailyAgg_ne_nil (txs : List Tx) (h : txs ≠ []) : dailyAgg txs ≠ [] := by
  cases txs with
  | nil => exact absurd rfl h
  | cons tx txs =>
      unfold dailyAgg
      rw [List.foldl_cons]
      refine foldl_dailyStep_ne_nil txs _ ?_
      unfold dailyStep
      exact bump_ne_nil _ _ _ _

/-- The daily aggregation has distinct date keys. -/
theorem nodup_keys_dailyAgg (txs : List Tx) :
    ((dailyAgg txs).map Prod.fst).Nodup := by
  suffices h : ∀ (ts : List Tx) (acc : List (String × ℚ × ℕ)),
      (acc.map Prod.fst).Nodup → ((ts.foldl dailyStep acc).map Prod.fst).Nodup by
    exact h txs [] (by simp)
  intro ts
  induction ts with
  | nil =>
      intro acc hacc
      simpa using hacc
  | cons tx ts ih =>
      intro acc hacc
      rw [List.foldl_cons]
      refine ih _ ?_
      unfold dailyStep
      exact nodup_keys_bump _ _ _ _ hacc

/-- The value stored under a date in the daily aggregation is that date's
total amount and transaction count over the input. -/
theorem getAssoc_foldl_dailyStep :
    ∀ (txs : List Tx) (acc : List (String × ℚ × ℕ)) (k : String),
      getAssoc (txs.foldl dailyStep acc) k =
        if (txs.filter (fun tx => tx.date.getD "" = k)).length = 0 then
          getAssoc acc k
        else some
          (((getAssoc acc k).getD (0, 0)).1 +
            ((txs.filter (fun tx => tx.date.getD "" = k)).map amount).sum,
           ((getAssoc acc k).getD (0, 0)).2 +
            (txs.filter (fun tx => tx.date.getD "" = k)).length) := by
  intro txs
  induction txs with
  | nil =>
      intro acc k
      simp
  | cons tx txs ih =>
      intro acc k
      rw [List.foldl_cons]
      by_cases hd : tx.date.getD "" = k
      · have hfil : (tx :: txs).filter (fun tx => decide (tx.date.getD "" = k)) =
            tx :: txs.filter (fun tx => decide (tx.date.getD "" = k)) :=
          List.filter_cons_of_pos (decide_eq_true hd)
        have hself : getAssoc (dailyStep acc tx) k =
            some (((getAssoc acc k).getD (0, 0)).1 + amount tx,
                  ((getAssoc acc k).getD (0, 0)).2 + 1) := by
          unfold dailyStep
          rw [hd, getAssoc_bump_self]
        rw [ih, hself, hfil, List.length_cons,
          if_neg (Nat.succ_ne_zero _)]
        by_cases h0 : (txs.filter (fun tx => decide (tx.date.getD "" = k))).length = 0
        · have hnil : txs.filter (fun tx => decide (tx.date.getD "" = k)) = [] :=
            List.length_eq_zero.mp h0
          simp [h0, hnil]
        · rw [if_neg h0]
          simp only [List.map_cons, List.sum_cons, Option.getD_some,
            Option.some.injEq, Prod.mk.injEq]
          constructor
          · ring
          · omega
      · have hfil : (tx :: txs).filter (fun tx => decide (tx.date.getD "" = k)) =
            txs.filter (fun tx => decide (tx.date.getD "" = k)) :=
          List.filter_cons_of_neg (by simpa using hd)
        have hother : getAssoc (dailyStep acc tx) k = getAssoc acc k := by
          unfold dailyStep
          exact getAssoc_bump_other _ _ _ _ _ hd
        rw [ih, hother, hfil]

/-! ## Claim theorems -/

/-- C9: each of the seven aggregation functions, applied to the empty
transaction collection, returns without raising and yields a zero/empty
result (`find_peak_sales_day` yields no date, zero revenue, zero count). -/
theorem C9_empty_collection_aggregates :
    calculate_total_revenue [] = 0 ∧
    region_wise_sales [] = some [] ∧
    (∀ n : ℕ, top_selling_products [] n = []) ∧
    customer_analysis [] = [] ∧
    daily_sales_trend [] = [] ∧
    find_peak_sales_day [] = (none, 0, 0) ∧
    (∀ t : Int, low_performing_products [] t = []) := by
  refine ⟨rfl, rfl, ?_, rfl, rfl, rfl, ?_⟩
  · intro n
    simp [top_selling_products, productAgg]
  · intro t
    rfl

/-- C10: calling `validate_and_filter` with `region = ""` behaves exactly
as if no region filter was given: identical output on every input (the
`TypeError` of the display block included), and whenever the call returns,
`filtered_by_region = 0` and (with no other filters) every validated
record is kept. -/
theorem C10_empty_region_is_no_filter (txs : List Tx) (m M : Option ℚ) :
    validate_and_filter txs (some "") m M = validate_and_filter txs none m M ∧
    (∀ out : List Tx × ℕ × FilterSummary,
      validate_and_filter txs (some "") m M = some out →
      out.2.2.filtered_by_region = 0) ∧
    (∀ out : List Tx × ℕ × FilterSummary,
      validate_and_filter txs (some "") none none = some out →
      out.1 = txs.filter validTx) := by
  refine ⟨rfl, ?_, ?_⟩
  · intro out hout
    obtain ⟨-, rfl⟩ := (vaf_some_iff txs (some "") m M out).mp hout
    simp [validateFilterCore, regionActive]
  · intro out hout
    obtain ⟨-, rfl⟩ := (vaf_some_iff txs (some "") none none out).mp hout
    rfl

/-- C10 witness: one valid record, `region = ""`. -/
theorem C10_witness :
    validate_and_filter [txG] (some "") none none =
      some ([txG], 0, { total_input := 1, invalid := 0, filtered_by_region := 0
                        filtered_by_amount := 0, final_count := 1 }) ∧
    (0 : ℕ) = 0 ∧ ([txG] : List Tx) = [txG].filter validTx :=
  have hout : validate_and_filter [txG] (some "") none none =
      some ([txG], 0, { total_input := 1, invalid := 0, filtered_by_region := 0
                        filtered_by_amount := 0, final_count := 1 }) := by
    with_unfolding_all rfl
  ⟨hout, (C10_empty_region_is_no_filter [txG] none none).2.1 _ hout,
    (C10_empty_region_is_no_filter [txG] none none).2.2 _ hout⟩

/-- C4: on a non-empty collection whose grand total revenue is zero,
`region_wise_sales` does NOT assign percentage 0 — it divides by the zero
grand total (`ZeroDivisionError`, modelled as `none`): the code contradicts
the spec's stated intent of 0% for all regions. -/
theorem C4_zero_total_divides_by_zero :
    calculate_total_revenue [txQ0] = 0 ∧ region_wise_sales [txQ0] = none := by
  constructor <;> with_unfolding_all rfl

/-- C1 counterexample: for `product_id = "P0"` the spec-worded key
(strip the `"P"` prefix, parse) is `0` and is present in the mapping, yet
the code enriches with `api_match = false` (`if numeric_id:` is falsy at
zero), refuting the claim as stated. -/
theorem C1_counterexample :
    specCatalogKey "P0" = some 0 ∧
    getAssoc [((0 : Int), catE0)] 0 = some catE0 ∧
    (enrich_sales_data [txP0] [((0 : Int), catE0)]).map EnrichedTx.apiMatch
      = [false] :=
  ⟨rfl, rfl, rfl⟩

/-- C2 counterexample: a record whose `Region` is the empty string passes
`validate_and_filter` and appears in `valid_records`, refuting the claimed
non-empty-region business rule. -/
theorem C2_counterexample :
    validate_and_filter [txER] none none none =
      some ([txER], 0, { total_input := 1, invalid := 0, filtered_by_region := 0
                         filtered_by_amount := 0, final_count := 1 }) ∧
    txER.region = some "" :=
  ⟨by with_unfolding_all rfl, rfl⟩

/-- C6 counterexample: a line beginning with the literal token
`"TransactionID"` whose eight fields parse numerically IS emitted as a
record by `parse_transactions`, refuting the claimed defensive header
skip. -/
theorem C6_counterexample :
    pyStartsWith "TransactionID" headerLine = true ∧
    (parse_transactions [headerLine]).length = 1 :=
  ⟨rfl, rfl⟩

/-- C5 counterexample: on an input mixing a record lacking `Region` with a
record having one, `validate_and_filter` raises `TypeError` at the
`sorted` of its display block and returns no summary at all, refuting the
claimed accounting identity "for every input list". -/
theorem C5_counterexample :
    txNR.region = none ∧ txG.region.isSome = true ∧
    validate_and_filter [txNR, txG] none none none = none :=
  ⟨rfl, rfl, by with_unfolding_all rfl⟩

/-- C5 (amended): whenever `validate_and_filter` returns — its display
block raises `TypeError` on inputs mixing a missing `Region` with a
present one — the summary satisfies
`total_input = invalid + filtered_by_region + filtered_by_amount + final_count`,
`final_count` is the length of the returned records, and with no filters
`invalid_count + len(valid_records)` is the number of inputs. -/
theorem C5_summary_accounting (txs : List Tx) (r : Option String) (m M : Option ℚ)
    (out : List Tx × ℕ × FilterSummary)
    (hout : validate_and_filter txs r m M = some out) :
    out.2.2.total_input =
      out.2.2.invalid + out.2.2.filtered_by_region + out.2.2.filtered_by_amount +
        out.2.2.final_count ∧
    out.2.2.final_count = out.1.length ∧
    out.2.1 = out.2.2.invalid ∧
    out.2.2.total_input = txs.length ∧
    (∀ out₀ : List Tx × ℕ × FilterSummary,
      validate_and_filter txs none none none = some out₀ →
      out₀.2.1 + out₀.1.length = txs.length) := by
  obtain ⟨-, rfl⟩ := (vaf_some_iff txs r m M out).mp hout
  have hsplit := List.length_eq_length_filter_add (l := txs) validTx
  refine ⟨?_, rfl, rfl, rfl, ?_⟩
  · unfold validateFilterCore
    dsimp only
    have h0 : (txs.filter validTx).length ≤ txs.length := List.length_filter_le _ _
    split
    · split
      · have h1 := List.length_filter_le (fun tx => decide (tx.region = r))
          (txs.filter validTx)
        have h2 := List.length_filter_le (inRange m M)
          ((txs.filter validTx).filter (fun tx => decide (tx.region = r)))
        omega
      · have h1 := List.length_filter_le (fun tx => decide (tx.region = r))
          (txs.filter validTx)
        omega
    · split
      · have h2 := List.length_filter_le (inRange m M) (txs.filter validTx)
        omega
      · omega
  · intro out₀ hout₀
    obtain ⟨-, rfl⟩ := (vaf_some_iff txs none none none out₀).mp hout₀
    show (txs.filter fun tx => !validTx tx).length + (txs.filter validTx).length
      = txs.length
    omega

/-- C5 witness: one valid record, no filters. -/
theorem C5_witness :
    validate_and_filter [txG] none none none =
      some ([txG], 0, { total_input := 1, invalid := 0, filtered_by_region := 0
                        filtered_by_amount := 0, final_count := 1 }) ∧
    ((1 : ℕ) = 0 + 0 + 0 + 1 ∧ (1 : ℕ) = 1 ∧ (0 : ℕ) = 0 ∧ (1 : ℕ) = 1 ∧
      ∀ out₀ : List Tx × ℕ × FilterSummary,
        validate_and_filter [txG] none none none = some out₀ →
        out₀.2.1 + out₀.1.length = 1) :=
  have hout : validate_and_filter [txG] none none none =
      some ([txG], 0, { total_input := 1, invalid := 0, filtered_by_region := 0
                        filtered_by_amount := 0, final_count := 1 }) := by
    with_unfolding_all rfl
  ⟨hout, C5_summary_accounting [txG] none none none _ hout⟩

/-- Re-running the validate-and-filter pipeline with the same arguments on
its own surviving records returns them unchanged, rejecting and filtering
nothing. -/
theorem core_filter_idempotent (txs : List Tx) (r : Option String) (m M : Option ℚ) :
    validateFilterCore ((validateFilterCore txs r m M).1) r m M =
      ((validateFilterCore txs r m M).1, 0,
        { total_input := (validateFilterCore txs r m M).1.length, invalid := 0
          filtered_by_region := 0, filtered_by_amount := 0
          final_count := (validateFilterCore txs r m M).1.length }) := by
  set v := (validateFilterCore txs r m M).1 with hv
  have hall : ∀ tx ∈ v, validTx tx = true := fun tx h => (mem_vaf txs r m M tx h).1
  have hreg : regionActive r = true → ∀ tx ∈ v, decide (tx.region = r) = true :=
    fun hr tx h => (mem_vaf txs r m M tx h).2.1 hr
  have hamt : (m.isSome || M.isSome) = true → ∀ tx ∈ v, inRange m M tx = true :=
    fun ha tx h => (mem_vaf txs r m M tx h).2.2 ha
  have e0 : v.filter validTx = v := List.filter_eq_self.mpr hall
  have e1 : (v.filter fun tx => !validTx tx) = [] :=
    List.filter_eq_nil_iff.mpr (by intro a ha; simp [hall a ha])
  conv_lhs => rw [validateFilterCore]
  rw [e0, e1]
  by_cases hr : regionActive r = true
  · have e2 : v.filter (fun tx => decide (tx.region = r)) = v :=
      List.filter_eq_self.mpr (hreg hr)
    by_cases ha : (m.isSome || M.isSome) = true
    · have e3 : v.filter (inRange m M) = v := List.filter_eq_self.mpr (hamt ha)
      simp [hr, ha, e2, e3]
    · simp [hr, ha, e2]
  · by_cases ha : (m.isSome || M.isSome) = true
    · have e3 : v.filter (inRange m M) = v := List.filter_eq_self.mpr (hamt ha)
      simp [hr, ha, e3]
    · simp [hr, ha]

/-- C8: `validate_and_filter` is idempotent — whenever a first application
returns `valid_records`, re-running it with the same arguments on those
records returns (without raising: every surviving record has a `Region`,
so the display block's `sorted` cannot fail) exactly the same records,
rejecting and filtering nothing. -/
theorem C8_filter_idempotent (txs : List Tx) (r : Option String) (m M : Option ℚ)
    (out : List Tx × ℕ × FilterSummary)
    (hout : validate_and_filter txs r m M = some out) :
    validate_and_filter out.1 r m M =
      some (out.1, 0,
        { total_input := out.1.length, invalid := 0, filtered_by_region := 0
          filtered_by_amount := 0, final_count := out.1.length }) := by
  obtain ⟨-, rfl⟩ := (vaf_some_iff txs r m M out).mp hout
  have hnr2 : sortedRegionsRaise (validateFilterCore txs r m M).1 = false := by
    unfold sortedRegionsRaise
    have h1 : ((validateFilterCore txs r m M).1.any fun tx => tx.region.isNone)
        = false := by
      rw [List.any_eq_false]
      intro tx htx
      have hs := (validTx_spelled tx (mem_vaf txs r m M tx htx).1).2.2.2.2.2.2.2
      rcases hreg : tx.region with _ | s
      · rw [hreg] at hs
        exact absurd hs (by simp)
      · simp
    rw [h1, Bool.false_and]
  unfold validate_and_filter
  rw [if_neg (by simp [hnr2])]
  exact congrArg some (core_filter_idempotent txs r m M)

/-- C8 witness: one valid record, no filters. -/
theorem C8_witness :
    validate_and_filter [txG] none none none =
      some ([txG], 0, { total_input := 1, invalid := 0, filtered_by_region := 0
                        filtered_by_amount := 0, final_count := 1 }) ∧
    validate_and_filter [txG] none none none =
      some ([txG], 0, { total_input := 1, invalid := 0, filtered_by_region := 0
                        filtered_by_amount := 0, final_count := 1 }) :=
  have hout : validate_and_filter [txG] none none none =
      some ([txG], 0, { total_input := 1, invalid := 0, filtered_by_region := 0
                        filtered_by_amount := 0, final_count := 1 }) := by
    with_unfolding_all rfl
  ⟨hout, C8_filter_idempotent [txG] none none none _ hout⟩

/-- C2 (amended): whenever `validate_and_filter` returns (its display
block raises `TypeError` on inputs mixing a missing `Region` with a
present one), every record in `valid_records` satisfies the spelled-out
business rules — all eight fields present, positive quantity and unit
price, and the `"T"`/`"P"`/`"C"` prefixes (the code does not require a
non-empty region) — and the records failing validation are exactly the
ones counted in `invalid_count`. -/
theorem C2_valid_records_satisfy_rules (txs : List Tx) (r : Option String)
    (m M : Option ℚ) (out : List Tx × ℕ × FilterSummary)
    (hout : validate_and_filter txs r m M = some out) :
    (∀ tx ∈ out.1, SatisfiesRules tx) ∧
    out.2.1 + (txs.filter validTx).length = txs.length := by
  obtain ⟨-, rfl⟩ := (vaf_some_iff txs r m M out).mp hout
  constructor
  · intro tx h
    exact validTx_spelled tx (mem_vaf txs r m M tx h).1
  · show (txs.filter fun tx => !validTx tx).length + (txs.filter validTx).length
      = txs.length
    have := List.length_eq_length_filter_add (l := txs) validTx
    omega

/-- C2 witness: the spec's example record is kept and satisfies the rules. -/
theorem C2_witness :
    validate_and_filter [txG] none none none =
      some ([txG], 0, { total_input := 1, invalid := 0, filtered_by_region := 0
                        filtered_by_amount := 0, final_count := 1 }) ∧
    txG ∈ ([txG] : List Tx) ∧ SatisfiesRules txG :=
  have hout : validate_and_filter [txG] none none none =
      some ([txG], 0, { total_input := 1, invalid := 0, filtered_by_region := 0
                        filtered_by_amount := 0, final_count := 1 }) := by
    with_unfolding_all rfl
  have hmem : txG ∈ ([txG] : List Tx) := List.mem_singleton.mpr rfl
  ⟨hout, hmem,
    (C2_valid_records_satisfy_rules [txG] none none none _ hout).1 txG hmem⟩

/-- C3: the enrichment join emits exactly one record per transaction, in
input order (the i-th output's base record is the i-th input), and against
an empty catalog every output has `api_match = false`. -/
theorem C3_join_cardinality (txs : List Tx) (mapping : List (Int × CatalogEntry)) :
    (enrich_sales_data txs mapping).length = txs.length ∧
    (∀ i : ℕ, ((enrich_sales_data txs mapping)[i]?).map EnrichedTx.tx = txs[i]?) ∧
    (∀ e ∈ enrich_sales_data txs [], e.apiMatch = false) := by
  refine ⟨by simp [enrich_sales_data], ?_, ?_⟩
  · intro i
    rw [enrich_sales_data, List.getElem?_map]
    cases h : txs[i]? <;> simp [enrichOne_tx]
  · intro e he
    obtain ⟨tx, -, rfl⟩ := List.mem_map.mp he
    exact enrichOne_empty_apiMatch tx

/-- C3 witness: with an empty catalog, the enrichment of the example
record is unmatched. -/
theorem C3_witness :
    enrichOne [] txG ∈ enrich_sales_data [txG] ([] : List (Int × CatalogEntry)) ∧
    (enrichOne [] txG).apiMatch = false := by
  have hmem : enrichOne [] txG ∈ enrich_sales_data [txG] [] := by
    simp [enrich_sales_data]
  exact ⟨hmem, (C3_join_cardinality [txG] []).2.2 _ hmem⟩

/-- C1 (amended): the enrichment join derives the catalog key by deleting
every occurrence of `'P'` from `product_id` and parsing the remainder as an
integer (absent on failure); the i-th output copies the i-th transaction,
and carries the catalog attributes with `api_match = true` exactly when the
key is present, nonzero (Python truthiness), and found in the mapping —
otherwise the three fields are null and `api_match = false`. -/
theorem C1_enrichment_join (txs : List Tx) (mapping : List (Int × CatalogEntry))
    (i : ℕ) (tx : Tx) (hi : txs[i]? = some tx) :
    ∃ e, (enrich_sales_data txs mapping)[i]? = some e ∧ e.tx = tx ∧
      (∀ n entry,
        pyInt ((tx.productID.getD "").toList.filter (fun c => c ≠ 'P')) = some n →
        n ≠ 0 → getAssoc mapping n = some entry →
        e.apiCategory = entry.category ∧ e.apiBrand = entry.brand ∧
        e.apiRating = entry.rating ∧ e.apiMatch = true) ∧
      ((∀ n, pyInt ((tx.productID.getD "").toList.filter (fun c => c ≠ 'P')) = some n →
          n = 0 ∨ getAssoc mapping n = none) →
        e.apiCategory = none ∧ e.apiBrand = none ∧ e.apiRating = none ∧
        e.apiMatch = false) := by
  refine ⟨enrichOne mapping tx, ?_, enrichOne_tx mapping tx, ?_, ?_⟩
  · rw [enrich_sales_data, List.getElem?_map, hi]
    rfl
  · intro n entry hp hn hg
    dsimp only [enrichOne]
    rw [hp]
    dsimp only
    rw [if_pos hn, hg]
    exact ⟨rfl, rfl, rfl, rfl⟩
  · intro hmiss
    rcases hp : pyInt ((tx.productID.getD "").toList.filter fun c => c ≠ 'P') with _ | n <;>
        dsimp only [enrichOne] <;> rw [hp] <;> dsimp only
    · exact ⟨rfl, rfl, rfl, rfl⟩
    · rcases hmiss n hp with h0 | hg
      · rw [if_neg (by simpa using h0)]
        exact ⟨rfl, rfl, rfl, rfl⟩
      · by_cases hn : n ≠ 0
        · rw [if_pos hn, hg]
          exact ⟨rfl, rfl, rfl, rfl⟩
        · rw [if_neg hn]
          exact ⟨rfl, rfl, rfl, rfl⟩

/-- C1 witness: the example record `P101` against a catalog holding id 101. -/
theorem C1_witness :
    (([txG] : List Tx)[0]? = some txG) ∧
    (∃ e, (enrich_sales_data [txG] [((101 : Int), catE0)])[0]? = some e ∧ e.tx = txG ∧
      (∀ n entry,
        pyInt ((txG.productID.getD "").toList.filter (fun c => c ≠ 'P')) = some n →
        n ≠ 0 → getAssoc [((101 : Int), catE0)] n = some entry →
        e.apiCategory = entry.category ∧ e.apiBrand = entry.brand ∧
        e.apiRating = entry.rating ∧ e.apiMatch = true) ∧
      ((∀ n, pyInt ((txG.productID.getD "").toList.filter (fun c => c ≠ 'P')) = some n →
          n = 0 ∨ getAssoc [((101 : Int), catE0)] n = none) →
        e.apiCategory = none ∧ e.apiBrand = none ∧ e.apiRating = none ∧
        e.apiMatch = false)) :=
  ⟨rfl, C1_enrichment_join [txG] [((101 : Int), catE0)] 0 txG rfl⟩

/-- C6 (amended): `parse_transactions` emits no record for a blank line
(it splits into one field, not eight); any line with a field count other
than eight, or whose quantity or unit-price field fails numeric parsing
after comma-stripping, is silently dropped; records are emitted in source
order (the parse is a `filterMap`).  Lines beginning with the header token
are not specially skipped — the standard header is dropped only because
its quantity field fails to parse. -/
theorem C6_record_parsing (lines : List String) (line : String) :
    parseLine "" = none ∧
    ((pySplit '|' line.toList).length ≠ 8 → parseLine line = none) ∧
    (∀ f0 f1 f2 f3 f4 f5 f6 f7,
      pySplit '|' line.toList = [f0, f1, f2, f3, f4, f5, f6, f7] →
      (pyInt (stripCommas f4) = none ∨ pyFloat (stripCommas f5) = none) →
      parseLine line = none) ∧
    parse_transactions lines = lines.filterMap parseLine := by
  refine ⟨rfl, ?_, ?_, ?_⟩
  · intro h
    unfold parseLine
    generalize pySplit '|' line.toList = parts at h ⊢
    rcases parts with _ | ⟨a, _ | ⟨b, _ | ⟨c, _ | ⟨d, _ | ⟨e, _ | ⟨f, _ | ⟨g, _ |
      ⟨hh, _ | ⟨i, rest⟩⟩⟩⟩⟩⟩⟩⟩⟩ <;> first | rfl | (exfalso; simp at h)
  · intro f0 f1 f2 f3 f4 f5 f6 f7 hsplit hfail
    unfold parseLine
    rw [hsplit]
    unfold parseFields
    dsimp only
    rcases hfail with h4 | h5
    · rw [h4]
    · rcases hq : pyInt (stripCommas f4) with _ | q
      · rfl
      · rw [h5]
  · induction lines with
    | nil => rfl
    | cons l ls ih =>
        rcases hp : parseLine l with _ | tx <;>
          simp [parse_transactions, List.filterMap_cons, hp, ih]

/-- C6 witness: a two-field line is dropped, and an eight-field line with
an unparseable quantity is dropped. -/
theorem C6_witness :
    ((pySplit '|' ("a|b").toList).length ≠ 8 ∧ parseLine "a|b" = none) ∧
    (pySplit '|' ("T1|2024-01-01|P1|N|1x|2|C1|R").toList =
        ["T1".toList, "2024-01-01".toList, "P1".toList, "N".toList, "1x".toList,
          "2".toList, "C1".toList, "R".toList] ∧
      pyInt (stripCommas ("1x").toList) = none ∧
      parseLine "T1|2024-01-01|P1|N|1x|2|C1|R" = none) :=
  ⟨⟨by decide, (C6_record_parsing [] "a|b").2.1 (by decide)⟩,
   ⟨by decide, by decide,
    (C6_record_parsing [] "T1|2024-01-01|P1|N|1x|2|C1|R").2.2.1
      "T1".toList "2024-01-01".toList "P1".toList "N".toList "1x".toList
      "2".toList "C1".toList "R".toList (by decide) (Or.inl (by decide))⟩⟩

/-- C7: on a non-empty valid collection, `find_peak_sales_day` returns the
first-encountered date achieving the strictly greatest per-date revenue
(ties keep the earlier date), together with that revenue (the maximum,
bounding every date's total) and that date's transaction count; revenue
and count equal the per-date totals recomputed from the input. -/
theorem C7_peak_sales_day (txs : List Tx) (hne : txs ≠ [])
    (hval : ∀ tx ∈ txs, validTx tx = true) :
    ∃ e, (dailyAgg txs).find?
        (fun p => decide (maxRev (dailyAgg txs) ≤ p.2.1)) = some e ∧
      find_peak_sales_day txs = (some e.1, e.2.1, e.2.2) ∧
      e.2.1 = maxRev (dailyAgg txs) ∧
      (∀ p ∈ dailyAgg txs, p.2.1 ≤ e.2.1) ∧
      e.2.1 = ((txs.filter (fun tx => tx.date.getD "" = e.1)).map amount).sum ∧
      e.2.2 = (txs.filter (fun tx => tx.date.getD "" = e.1)).length := by
  have hpos : ∀ tx ∈ txs, 0 < amount tx := by
    intro tx htx
    have h := hval tx htx
    unfold validTx at h
    simp only [Bool.and_eq_true, decide_eq_true_eq] at h
    obtain ⟨⟨⟨⟨⟨-, h9⟩, h10⟩, -⟩, -⟩, -⟩ := h
    unfold amount
    have hq : (0 : ℚ) < (tx.quantity.getD 0 : ℚ) := by exact_mod_cast h9
    exact mul_pos hq h10
  have hentries : ∀ p ∈ dailyAgg txs, 0 < p.2.1 :=
    foldl_dailyStep_pos txs [] hpos (by simp)
  have hln : dailyAgg txs ≠ [] := dailyAgg_ne_nil txs hne
  have hM : maxRev (dailyAgg txs) =
      (dailyAgg txs).foldl (fun m p => max m p.2.1)
        (((none : Option String), (0 : ℚ), (0 : ℕ))).2.1 := rfl
  have h0M : (((none : Option String), (0 : ℚ), (0 : ℕ))).2.1
      < maxRev (dailyAgg txs) := by
    obtain ⟨p, hp⟩ := List.exists_mem_of_ne_nil (dailyAgg txs) hln
    exact lt_of_lt_of_le (hentries p hp) (foldl_max_le_mem (dailyAgg txs) 0 p hp)
  obtain ⟨e, hfind, hfold, heM⟩ :=
    (peak_go (dailyAgg txs) ((none : Option String), (0 : ℚ), (0 : ℕ))
      (maxRev (dailyAgg txs)) hM).2 h0M
  have hmem : e ∈ dailyAgg txs := List.mem_of_find?_eq_some hfind
  have hass : getAssoc (dailyAgg txs) e.1 = some e.2 :=
    getAssoc_of_mem (dailyAgg txs) e (nodup_keys_dailyAgg txs) hmem
  have hsum := getAssoc_foldl_dailyStep txs [] e.1
  rw [show txs.foldl dailyStep [] = dailyAgg txs from rfl, hass] at hsum
  by_cases hc : (txs.filter (fun tx => decide (tx.date.getD "" = e.1))).length = 0
  · rw [if_pos hc] at hsum
    exact absurd hsum (by simp [getAssoc])
  · rw [if_neg hc] at hsum
    simp only [getAssoc, Option.getD_none, Option.some.injEq] at hsum
    have h1 : e.2.1 = ((txs.filter (fun tx => tx.date.getD "" = e.1)).map amount).sum := by
      have := congrArg Prod.fst hsum
      simpa using this
    have h2 : e.2.2 = (txs.filter (fun tx => tx.date.getD "" = e.1)).length := by
      have := congrArg Prod.snd hsum
      simpa using this
    refine ⟨e, hfind, hfold, heM, ?_, h1, h2⟩
    intro p hp
    rw [heM]
    exact foldl_max_le_mem (dailyAgg txs) 0 p hp

/-- C7 witness: two dates, the second with the larger revenue. -/
theorem C7_witness :
    (([txB, txG] : List Tx) ≠ [] ∧ (∀ tx ∈ ([txB, txG] : List Tx), validTx tx = true)) ∧
    (∃ e, (dailyAgg [txB, txG]).find?
        (fun p => decide (maxRev (dailyAgg [txB, txG]) ≤ p.2.1)) = some e ∧
      find_peak_sales_day [txB, txG] = (some e.1, e.2.1, e.2.2) ∧
      e.2.1 = maxRev (dailyAgg [txB, txG]) ∧
      (∀ p ∈ dailyAgg [txB, txG], p.2.1 ≤ e.2.1) ∧
      e.2.1 = (([txB, txG].filter (fun tx => tx.date.getD "" = e.1)).map amount).sum ∧
      e.2.2 = ([txB, txG].filter (fun tx => tx.date.getD "" = e.1)).length) :=
  ⟨⟨by simp, by decide⟩,
   C7_peak_sales_day [txB, txG] (by simp) (by decide)⟩

end Sales
